import Mathlib

/-!
Shallow embedding of the movie-dashboard pipeline (`src/app.py`):
the loader/normalizer, the year/genre filter, and the aggregators that
feed the charts (summary metrics, top-10 by popularity, genre
distribution, marker-size transform) plus the CSV export.

Conventions of the embedding:
* a pandas DataFrame row becomes a record; a DataFrame becomes a `List`
  of records in row order;
* Python floats are modelled as `ℚ` (the operations involved — mean,
  two-decimal rounding, linear rescale — are rational);
* a nullable cell (`NaN`) is `Option`;
* `round(x, 2)` is modelled as rounding to the nearest multiple of
  1/100 (Python rounds ties to even; no claim below exercises a tie).
-/

/-- A row of the raw spreadsheet after the column-wise coercions of
`load_data` (`src/app.py` lines 21–33): `title` is `none` when the cell
is missing; `release_Date` is the result of
`pd.to_numeric(..., errors="coerce")`, `none` when the cell is missing
or fails numeric parsing; `genre` is the cell cast to string;
`vote_Average`, `popularity`, `vote_Count` are `none` when missing or
unparseable. -/
structure RawRow where
  title : Option String
  release_Date : Option ℚ
  genre : String
  vote_Average : Option ℚ
  popularity : Option ℚ
  vote_Count : Option Int
deriving DecidableEq

/-- A row of the normalized Dataset (post-`load_data`): `Title` non-null,
`Release_Date` an integer year, `Genre` a cleaned comma-separated string,
`Vote_Average`/`Popularity` floats defaulted to 0.0, `Vote_Count` a
nullable integer (pandas `Int64`). -/
structure MovieRecord where
  title : String
  releaseYear : Int
  genre : String
  voteAverage : ℚ
  popularity : ℚ
  voteCount : Option Int
deriving DecidableEq

/-- Python `str.strip()` on the character list: drop whitespace from
both ends. -/
def stripWS (l : List Char) : List Char :=
  ((l.dropWhile Char.isWhitespace).reverse.dropWhile Char.isWhitespace).reverse

/-- Python `str.split(sep)` for a one-character separator: split into
the (possibly empty) chunks between occurrences of `sep`; the empty
string yields `[[]]`, as `"".split(",") == [""]` in Python. -/
def splitChar (sep : Char) : List Char → List (List Char)
  | [] => [[]]
  | c :: cs =>
    if c = sep then [] :: splitChar sep cs
    else
      match splitChar sep cs with
      | [] => [[c]]
      | f :: rest => (c :: f) :: rest

/-- `df["Genre"].astype(str).str.replace("\r", "").str.strip()`
(`src/app.py` line 32): remove every carriage return, then trim. -/
def cleanGenre (s : String) : String :=
  ⟨stripWS (s.data.filter (fun c => c ≠ '\r'))⟩

/-- `astype(int)` on a float year (`src/app.py` line 49): truncation
toward zero.  For a rational `q` this is `q.num.tdiv q.den`
(truncating integer division). -/
def truncQ (q : ℚ) : Int :=
  q.num.tdiv (q.den : Int)

/-- The row-retention test of `df.dropna(subset=["Release_Date", "Title"])`
(`src/app.py` line 35): keep a row iff both `Title` and the
numeric-parsed `Release_Date` are present. -/
def keepRow (r : RawRow) : Bool :=
  r.title.isSome && r.release_Date.isSome

/-- The per-row effect of the column transforms of `load_data`
(`src/app.py` lines 32–49) on a retained row: clean `Genre`, default
`Vote_Average` and `Popularity` to 0.0, keep `Vote_Count` nullable,
truncate the year to an integer.  (The `getD` defaults for `title` and
`release_Date` are only reached on rows that `keepRow` discards.) -/
def normalizeRow (r : RawRow) : MovieRecord :=
  { title := r.title.getD ""
    releaseYear := truncQ (r.release_Date.getD 0)
    genre := cleanGenre r.genre
    voteAverage := r.vote_Average.getD 0
    popularity := r.popularity.getD 0
    voteCount := r.vote_Count }

/-- `load_data` (`src/app.py` lines 20–50): drop rows with missing
`Title` or missing/unparseable `Release_Date`, normalize the rest in
row order. -/
def load_data (raws : List RawRow) : List MovieRecord :=
  (raws.filter keepRow).map normalizeRow

/-- The comma-split-and-trim of a `Genre` cell used by the genre filter
(`src/app.py` line 113): `[g.strip() for g in x.split(",")]`. -/
def genreTokens (s : String) : List String :=
  (splitChar ',' s.data).map (fun l => (⟨stripWS l⟩ : String))

/-- `years = sorted(df["Release_Date"].dropna().unique())`
(`src/app.py` line 93): the distinct release years, ascending. -/
def years (ds : List MovieRecord) : List Int :=
  List.mergeSort ((ds.map (fun r => r.releaseYear)).dedup)
    (fun a b => decide (a ≤ b))

/-- `all_genres` (`src/app.py` lines 97–105): the sorted set of trimmed
non-empty comma-split tokens of `Genre`, over the full Dataset (with the
`if cell else []` guard for an empty cell). -/
def all_genres (ds : List MovieRecord) : List String :=
  List.mergeSort
    ((ds.flatMap (fun r =>
        if r.genre = "" then []
        else (genreTokens r.genre).filter (fun g => g ≠ ""))).dedup)
    (fun a b => decide (a ≤ b))

/-- `filtered_df` (`src/app.py` lines 109–114): keep rows whose year is
in `selected_years`; then, only when `selected_genres` is non-empty (the
Python truthiness test `if selected_genres:`), keep rows where some
selected genre occurs among the row's trimmed comma-split tokens. -/
def filtered_df (ds : List MovieRecord) (selected_years : List Int)
    (selected_genres : List String) : List MovieRecord :=
  let byYear := ds.filter (fun r => selected_years.contains r.releaseYear)
  if selected_genres.isEmpty then byYear
  else byYear.filter (fun r =>
    selected_genres.any (fun sel => (genreTokens r.genre).contains sel))

/-- `Series.mean()` in pandas: `NaN` (here `none`) on an empty column,
else sum divided by count. -/
def seriesMean (xs : List ℚ) : Option ℚ :=
  if xs.length = 0 then none else some (xs.sum / (xs.length : ℚ))

/-- Python `round(x, 2)`: round to the nearest multiple of 1/100. -/
def round2 (q : ℚ) : ℚ :=
  (round (q * 100) : ℚ) / 100

/-- `avg_rating` (`src/app.py` lines 122–127): mean `Vote_Average`
rounded to two decimals when the view is non-empty, else the explicit
guard value 0.0 (the `getD` is never reached on the guarded branch). -/
def avg_rating (view : List MovieRecord) : ℚ :=
  if 0 < view.length then
    round2 ((seriesMean (view.map (fun r => r.voteAverage))).getD 0)
  else 0

/-- `avg_popularity` (`src/app.py` lines 122–127). -/
def avg_popularity (view : List MovieRecord) : ℚ :=
  if 0 < view.length then
    round2 ((seriesMean (view.map (fun r => r.popularity))).getD 0)
  else 0

/-- The descending-`Popularity` comparator of `nlargest`. -/
def popDescLe (a b : MovieRecord) : Bool :=
  decide (b.popularity ≤ a.popularity)

/-- `top_movies = filtered_df.nlargest(10, "Popularity")`
(`src/app.py` line 172): the first 10 rows in descending-`Popularity`
order, ties kept in order of appearance (pandas `keep="first"`), i.e.
a stable descending sort followed by `take 10`. -/
def top_movies (view : List MovieRecord) : List MovieRecord :=
  (List.mergeSort view popDescLe).take 10

/-- `genre_split` (`src/app.py` lines 192–195): all trimmed non-empty
genre tokens of the view, row by row (`if genres:` skips empty cells). -/
def genre_split (view : List MovieRecord) : List String :=
  view.flatMap (fun r =>
    if r.genre = "" then []
    else (genreTokens r.genre).filter (fun g => g ≠ ""))

/-- `genre_df = pd.Series(genre_split).value_counts()`
(`src/app.py` line 197): one `(token, frequency)` pair per distinct
token, ordered by frequency descending (stable). -/
def genre_df (view : List MovieRecord) : List (String × Nat) :=
  List.mergeSort
    (((genre_split view).dedup).map (fun g => (g, (genre_split view).count g)))
    (fun a b => decide (b.2 ≤ a.2))

/-- `size_vals.max()` on the non-empty `Vote_Count` column
(`src/app.py` line 227); 0 on the empty list, which the script never
reaches (guarded by `total_movies > 0`). -/
def sizeMax : List Int → Int
  | [] => 0
  | c :: cs => cs.foldr max c

/-- `size_vals.min()` (`src/app.py` line 229). -/
def sizeMin : List Int → Int
  | [] => 0
  | c :: cs => cs.foldr min c

/-- The `Vote_Count` column of the view coerced for plotting
(`src/app.py` lines 218–221): missing values filled with 0. -/
def viewVoteCounts (view : List MovieRecord) : List Int :=
  view.map (fun r => r.voteCount.getD 0)

/-- `plot_sizes` (`src/app.py` lines 225–232): if the maximum vote count
is positive, rescale each value by `(v - min) / (max - min) * 35 + 5`;
otherwise every marker gets the fixed minimum size 5. -/
def plot_sizes (counts : List Int) : List ℚ :=
  if 0 < sizeMax counts then
    counts.map (fun v : Int =>
      ((v : ℚ) - (sizeMin counts : ℚ)) / ((sizeMax counts : ℚ) - (sizeMin counts : ℚ))
        * (40 - 5) + 5)
  else counts.map (fun _ => 5)

/-- The denominator `size_vals.max() - size_vals.min()` of the rescale
branch (`src/app.py` line 229) is evaluated exactly when
`size_vals.max() > 0`; this predicate says that evaluation divides by
zero. -/
def sizesDivByZero (counts : List Int) : Prop :=
  0 < sizeMax counts ∧ (sizeMax counts : ℚ) - (sizeMin counts : ℚ) = 0

instance (counts : List Int) : Decidable (sizesDivByZero counts) := by
  unfold sizesDivByZero; infer_instance

/-- Modelled from the spec (§4.3 marker-size transform): "linearly
rescale each value from [min, max] observed in the view to [5, 40]",
i.e. `size(v) = (v - min) / (max - min) * 35 + 5`. -/
def rescaleSpec (v lo hi : Int) : ℚ :=
  ((v : ℚ) - (lo : ℚ)) / ((hi : ℚ) - (lo : ℚ)) * 35 + 5

/-! ### CSV export and reparse

`src/app.py` line 255 exports the current view with
`filtered_df.to_csv(index=False).encode("utf-8")`.  The CSV writer and
the reparse step live in external libraries, so both are modelled from
the spec (§6 Export: "a CSV byte stream of the current FilteredView,
UTF-8 encoded, with the same columns as the in-memory record shape"):
comma-separated fields, rows terminated by a newline, minimal
double-quote quoting with doubled embedded quotes (RFC 4180, which is
what `to_csv` emits).  UTF-8 byte encoding/decoding is the identity on
strings and is elided; numeric cells are rendered with `toString`, which
is immaterial to the round-trip claim (row count and `Title` column). -/

/-- A field must be quoted when it contains the separator, a quote, or a
line break. -/
def needsQuote (s : String) : Bool :=
  s.data.any (fun c => c = ',' || c = '"' || c = '\n' || c = '\r')

/-- Double every embedded quote character. -/
def escapeQuotes : List Char → List Char
  | [] => []
  | c :: cs => if c = '"' then '"' :: '"' :: escapeQuotes cs else c :: escapeQuotes cs

/-- Render one CSV field with minimal quoting. -/
def csvField (s : String) : List Char :=
  if needsQuote s then '"' :: escapeQuotes s.data ++ ['"'] else s.data

/-- Interleave a separator character between chunks. -/
def joinSep (sep : Char) : List (List Char) → List Char
  | [] => []
  | [f] => f
  | f :: fs => f ++ sep :: joinSep sep fs

/-- Render one CSV record: fields joined by commas. -/
def csvRow (fs : List String) : List Char :=
  joinSep ',' (fs.map csvField)

/-- The header row: the columns of the in-memory record shape. -/
def headerFields : List String :=
  ["Title", "Release_Date", "Genre", "Vote_Average", "Popularity", "Vote_Count"]

/-- The cells of one exported row, in column order (a missing
`Vote_Count` renders as the empty cell, as pandas does). -/
def rowFields (r : MovieRecord) : List String :=
  [r.title, toString r.releaseYear, r.genre, toString r.voteAverage,
   toString r.popularity, (r.voteCount.map toString).getD ""]

/-- `filtered_df.to_csv(index=False)`: header line then one line per
row, each terminated by a newline. -/
def to_csv (view : List MovieRecord) : String :=
  ⟨(headerFields :: view.map rowFields).flatMap (fun r => csvRow r ++ ['\n'])⟩

/-- Modelled from the spec: the reparse step of the round-trip property.
Parse the body of a quoted field; `some (content, rest)` leaves `rest`
at the character after the closing quote, `none` on an unterminated
quote. -/
def parseQuoted : List Char → Option (List Char × List Char)
  | [] => none
  | [c] => if c = '"' then some ([], []) else none
  | c :: c2 :: cs =>
    if c = '"' then
      if c2 = '"' then (parseQuoted cs).map (fun p => ('"' :: p.1, p.2))
      else some ([], c2 :: cs)
    else (parseQuoted (c2 :: cs)).map (fun p => (c :: p.1, p.2))

/-- Parse an unquoted field: everything up to (excluding) the next
separator or newline. -/
def parseUnquoted : List Char → List Char × List Char
  | [] => ([], [])
  | c :: cs =>
    if c = ',' || c = '\n' then ([], c :: cs)
    else ((parseUnquoted cs).1.cons c, (parseUnquoted cs).2)

/-- Parse one field, quoted or not. -/
def parseField : List Char → Option (List Char × List Char)
  | [] => some ([], [])
  | c :: cs => if c = '"' then parseQuoted cs else some (parseUnquoted (c :: cs))

/-- Parse one record: comma-separated fields up to a newline (consumed)
or the end of input.  `fuel` bounds the number of fields. -/
def parseRecord : Nat → List Char → Option (List (List Char) × List Char)
  | 0, _ => none
  | fuel + 1, cs =>
    match parseField cs with
    | none => none
    | some (f, rest) =>
      match rest with
      | ',' :: cs2 =>
        (parseRecord fuel cs2).map (fun p => (f :: p.1, p.2))
      | '\n' :: cs2 => some ([f], cs2)
      | [] => some ([f], [])
      | _ => none

/-- Parse a sequence of newline-terminated records; `fuel` bounds the
number of records. -/
def parseRows : Nat → List Char → Option (List (List (List Char)))
  | 0, _ => none
  | fuel + 1, cs =>
    match cs with
    | [] => some []
    | _ =>
      match parseRecord (cs.length + 1) cs with
      | none => none
      | some (r, rest) => (parseRows fuel rest).map (fun rs => r :: rs)

/-- Modelled from the spec: reparse a CSV text into its table of cells. -/
def parseCSV (s : String) : Option (List (List String)) :=
  (parseRows (s.data.length + 1) s.data).map
    (fun rows => rows.map (fun r => r.map (fun f => (⟨f⟩ : String))))

/-- The genre-multiselect options as the script computes them for a
given dataset and current selection (`src/app.py` lines 97–106): they
are derived from the full `df`, independent of `selected_years`,
`selected_genres` and `filtered_df`. -/
def genreOptions (ds : List MovieRecord) (_selected_years : List Int)
    (_selected_genres : List String) : List String :=
  all_genres ds

/-! ### Concrete example data for instantiations -/

/-- Example record. -/
def movieA : MovieRecord :=
  ⟨"Inception", 2010, "Action, Sci-Fi", 87/10, 295/10, some 30000⟩

/-- Example record. -/
def movieB : MovieRecord :=
  ⟨"Arrival", 2016, "Drama, Sci-Fi", 79/10, 181/10, some 20000⟩

/-- A record with vote count 7. -/
def movieTie1 : MovieRecord := ⟨"A", 2020, "Action", 1, 7, some 7⟩

/-- Another record with vote count 7. -/
def movieTie2 : MovieRecord := ⟨"B", 2020, "Drama", 3, 7, some 7⟩

/-- A dataset whose rows all carry the same positive vote count. -/
def tieDataset : List MovieRecord := [movieTie1, movieTie2]

/-- A FilteredView (all years selected, no genre restriction) whose
`Vote_Count` column is `[7, 7]`: maximum positive, minimum = maximum. -/
def tieView : List MovieRecord := filtered_df tieDataset [2020] []

/-- Example raw row that passes the retention test. -/
def rawGood : RawRow :=
  ⟨some "Inception", some 2010, "Action, Sci-Fi\r", some (87/10), some (295/10), some 30000⟩

/-- Example raw row with a missing `Title`. -/
def rawNoTitle : RawRow := ⟨none, some 2005, "Drama", some 7, some 10, some 5⟩

/-- Example raw row whose release-date cell failed numeric parsing. -/
def rawBadDate : RawRow := ⟨some "Mystery", none, "", none, none, none⟩

/-- A row with genre cell `"Action, Drama"` (the spec's example). -/
def movieActionDrama : MovieRecord := ⟨"M1", 2020, "Action, Drama", 0, 0, none⟩

/-- A row with genre cell `"Action"` (the spec's example). -/
def movieActionOnly : MovieRecord := ⟨"M2", 2020, "Action", 0, 0, none⟩

/-! ### Claims -/

/-- C1: the filter is asymmetric on empty selections.  With an empty
selected-years set the FilteredView is empty, for every dataset and
every genre selection; with the full set of years present
(`years ds`) and an empty genre selection, the FilteredView is the
whole dataset. -/
theorem filtered_df_empty_selection_asymmetry :
    (∀ (ds : List MovieRecord) (gs : List String), filtered_df ds [] gs = [])
    ∧ (∀ ds : List MovieRecord, filtered_df ds (years ds) [] = ds) := by
  constructor
  · intro ds gs
    simp [filtered_df]
  · intro ds
    simp only [filtered_df, List.isEmpty_nil, if_pos]
    apply List.filter_eq_self.mpr
    intro r hr
    simp only [List.contains, List.elem_iff, years, List.mem_mergeSort,
      List.mem_dedup, List.mem_map]
    exact ⟨r, hr, rfl⟩

/-- C10: the filter is order-preserving — for every dataset and every
selection, the FilteredView is a subsequence (`Sublist`) of the dataset:
no row is reordered or duplicated. -/
theorem filtered_df_sublist (ds : List MovieRecord) (ys : List Int)
    (gs : List String) : List.Sublist (filtered_df ds ys gs) ds := by
  unfold filtered_df
  split
  · exact List.filter_sublist ds
  · exact (List.filter_sublist _).trans (List.filter_sublist ds)

/-- C2 counterexample: `tieView` is a FilteredView (all years selected,
no genre restriction) whose `Vote_Count` column is `[7, 7]`; its maximum
is positive, so the rescale branch is taken, and there the denominator
`max - min` is zero — the transform does divide by zero on this
FilteredView, contrary to the claim. -/
theorem plot_sizes_divzero_counterexample :
    sizesDivByZero (viewVoteCounts tieView) := by
  have h : viewVoteCounts tieView = [7, 7] := by rfl
  rw [h]
  constructor
  · decide
  · norm_num [sizeMax, sizeMin]

/-- C2 amended: if the maximum vote count of the view is 0, every
marker gets the fixed minimum size 5; and the transform performs no
division by zero whenever the maximum is not positive or the minimum is
strictly below the maximum (the remaining case — all vote counts equal
to one positive value — does divide by zero, see the counterexample). -/
theorem plot_sizes_zero_guard (counts : List Int) :
    (sizeMax counts = 0 → plot_sizes counts = counts.map (fun _ => 5))
    ∧ ((sizeMax counts ≤ 0 ∨ sizeMin counts < sizeMax counts) →
        ¬ sizesDivByZero counts) := by
  constructor
  · intro h
    simp [plot_sizes, h]
  · rintro hcase ⟨hpos, hden⟩
    rcases hcase with h | h
    · omega
    · have : (sizeMax counts : ℚ) = (sizeMin counts : ℚ) := by linarith
      have : sizeMax counts = sizeMin counts := by exact_mod_cast this
      omega

/-- C2 witness: the amended theorem applied at the all-zero column
`[0, 0, 0]` and at the column `[10, 20]`. -/
theorem plot_sizes_zero_guard_witness :
    plot_sizes [0, 0, 0] = ([0, 0, 0] : List Int).map (fun _ => 5)
    ∧ ¬ sizesDivByZero [10, 20] :=
  ⟨(plot_sizes_zero_guard [0, 0, 0]).1 (by decide),
   (plot_sizes_zero_guard [10, 20]).2 (Or.inr (by decide))⟩

/-- C3: whenever the maximum vote count of the view is positive, every
value `v` is rescaled linearly from the observed `[min, max]` to
`[5, 40]` by `(v - min) / (max - min) * 35 + 5`; in particular the
column `[10, 20, 30]` maps to the sizes `[5, 22.5, 40]`. -/
theorem plot_sizes_rescale :
    (∀ counts : List Int, 0 < sizeMax counts →
        plot_sizes counts
          = counts.map (fun v => rescaleSpec v (sizeMin counts) (sizeMax counts)))
    ∧ plot_sizes [10, 20, 30] = [5, 45/2, 40] := by
  constructor
  · intro counts h
    simp only [plot_sizes, if_pos h, rescaleSpec]
    have h35 : ((40 : ℚ) - 5) = 35 := by norm_num
    rw [h35]
  · norm_num [plot_sizes, sizeMax, sizeMin]

/-- C3 witness: the rescale equation applied at the column
`[10, 20, 30]`. -/
theorem plot_sizes_rescale_witness :
    plot_sizes [10, 20, 30]
      = ([10, 20, 30] : List Int).map
          (fun v => rescaleSpec v (sizeMin [10, 20, 30]) (sizeMax [10, 20, 30])) :=
  plot_sizes_rescale.1 [10, 20, 30] (by decide)

/-- C4: on an empty FilteredView both averages are the explicit guard
value 0.0 (not the `NaN` that `Series.mean()` would yield, i.e. not
`none`); on a non-empty view the pandas mean is well-defined
(`some`, never `NaN`) and each average equals that mean rounded to two
decimals. -/
theorem summary_metrics_spec (view : List MovieRecord) :
    (view.length = 0 → avg_rating view = 0 ∧ avg_popularity view = 0)
    ∧ (0 < view.length →
        seriesMean (view.map (fun r => r.voteAverage))
            = some ((view.map (fun r => r.voteAverage)).sum / (view.length : ℚ))
        ∧ avg_rating view
            = round2 ((view.map (fun r => r.voteAverage)).sum / (view.length : ℚ))
        ∧ seriesMean (view.map (fun r => r.popularity))
            = some ((view.map (fun r => r.popularity)).sum / (view.length : ℚ))
        ∧ avg_popularity view
            = round2 ((view.map (fun r => r.popularity)).sum / (view.length : ℚ))) := by
  constructor
  · intro h
    constructor <;> simp [avg_rating, avg_popularity, h]
  · intro h
    have hne : ¬ view.length = 0 := by omega
    have hr : seriesMean (view.map (fun r => r.voteAverage))
        = some ((view.map (fun r => r.voteAverage)).sum / (view.length : ℚ)) := by
      simp [seriesMean, hne]
    have hp : seriesMean (view.map (fun r => r.popularity))
        = some ((view.map (fun r => r.popularity)).sum / (view.length : ℚ)) := by
      simp [seriesMean, hne]
    refine ⟨hr, ?_, hp, ?_⟩
    · simp [avg_rating, if_pos h, hr]
    · simp [avg_popularity, if_pos h, hp]

/-- C4 witness: the guard applied to the empty view, and the rounded
mean applied to a concrete two-row view. -/
theorem summary_metrics_spec_witness :
    (avg_rating [] = 0 ∧ avg_popularity [] = 0)
    ∧ avg_rating [movieA, movieB]
        = round2 (([movieA, movieB].map (fun r => r.voteAverage)).sum
            / (([movieA, movieB] : List MovieRecord).length : ℚ)) :=
  ⟨(summary_metrics_spec []).1 rfl,
   ((summary_metrics_spec [movieA, movieB]).2 (by decide)).2.1⟩

/-- C6: every record of the loaded Dataset originates from a raw row
with a present `Title` (the record's title is that string) and a
release-date cell that parsed numerically (the record's year is its
integer truncation); the loader keeps exactly the rows passing the
retention test, and any raw row with a missing `Title` or an
unparseable release date is discarded. -/
theorem load_data_post_invariant (raws : List RawRow) :
    (∀ rec ∈ load_data raws, ∃ raw ∈ raws,
        (∃ t, raw.title = some t ∧ rec.title = t)
      ∧ (∃ d, raw.release_Date = some d ∧ rec.releaseYear = truncQ d))
    ∧ (load_data raws).length = (raws.filter keepRow).length
    ∧ (∀ raw ∈ raws, (raw.title = none ∨ raw.release_Date = none) →
          raw ∉ raws.filter keepRow) := by
  refine ⟨?_, ?_, ?_⟩
  · intro rec hrec
    rw [load_data] at hrec
    obtain ⟨raw, hmem, hnorm⟩ := List.mem_map.mp hrec
    obtain ⟨hin, hkeep⟩ := List.mem_filter.mp hmem
    simp only [keepRow, Bool.and_eq_true] at hkeep
    refine ⟨raw, hin, ?_, ?_⟩
    · obtain ⟨t, ht⟩ := Option.isSome_iff_exists.mp hkeep.1
      exact ⟨t, ht, by rw [← hnorm]; simp [normalizeRow, ht]⟩
    · obtain ⟨d, hd⟩ := Option.isSome_iff_exists.mp hkeep.2
      exact ⟨d, hd, by rw [← hnorm]; simp [normalizeRow, hd]⟩
  · rw [load_data, List.length_map]
  · intro raw _ hbad hmemf
    have hk := (List.mem_filter.mp hmemf).2
    simp only [keepRow, Bool.and_eq_true] at hk
    rcases hbad with h | h <;> simp [h] at hk

/-- C6 witness: on a concrete raw table, the row with a missing title is
discarded by the retention filter. -/
theorem load_data_post_invariant_witness :
    rawNoTitle ∉ List.filter keepRow [rawGood, rawNoTitle, rawBadDate] :=
  (load_data_post_invariant [rawGood, rawNoTitle, rawBadDate]).2.2 rawNoTitle
    (by decide) (Or.inl rfl)

/-- The `nlargest` comparator is transitive. -/
lemma popDescLe_trans : ∀ (a b c : MovieRecord),
    popDescLe a b → popDescLe b c → popDescLe a c := by
  intro a b c hab hbc
  simp only [popDescLe, decide_eq_true_eq] at *
  exact le_trans hbc hab

/-- The `nlargest` comparator is total. -/
lemma popDescLe_total : ∀ (a b : MovieRecord),
    popDescLe a b || popDescLe b a := by
  intro a b
  simp only [popDescLe, Bool.or_eq_true, decide_eq_true_eq]
  exact le_total b.popularity a.popularity

/-- Stability of the descending sort: restricted to any one popularity
value, the sorted list is exactly the input's sublist for that value, in
input order. -/
lemma filter_mergeSort_popEq (view : List MovieRecord) (p : ℚ) :
    (List.mergeSort view popDescLe).filter (fun r => decide (r.popularity = p))
      = view.filter (fun r => decide (r.popularity = p)) := by
  set P : MovieRecord → Bool := fun r => decide (r.popularity = p) with hP
  have hcP : ∀ r ∈ view.filter P, P r = true := fun r hr => (List.mem_filter.mp hr).2
  have hpeq : ∀ r ∈ view.filter P, r.popularity = p := by
    intro r hr
    have := hcP r hr
    rw [hP] at this
    exact of_decide_eq_true this
  have hpair : (view.filter P).Pairwise (fun a b => popDescLe a b = true) := by
    apply List.pairwise_of_forall_mem_list
    intro a ha b hb
    simp only [popDescLe, decide_eq_true_eq, hpeq a ha, hpeq b hb]
    exact le_refl p
  have hsub : List.Sublist (view.filter P) (List.mergeSort view popDescLe) :=
    List.sublist_mergeSort popDescLe_trans popDescLe_total hpair
      (List.filter_sublist view)
  have hsub2 : List.Sublist (view.filter P)
      ((List.mergeSort view popDescLe).filter P) := by
    have h := hsub.filter P
    rwa [List.filter_eq_self.mpr hcP] at h
  have hperm : ((List.mergeSort view popDescLe).filter P).Perm (view.filter P) :=
    (List.mergeSort_perm view popDescLe).filter P
  exact (List.Sublist.eq_of_length hsub2 hperm.length_eq.symm).symm

/-- C5: `top_movies` is sorted descending by `Popularity`; it has
`min 10 n` rows; it is a largest-popularity selection (the remaining
rows all have popularity at most every selected row); a view of fewer
than 10 rows is returned whole; and ties are broken by input order —
for each popularity value, the selected rows with that value are a
prefix of the view's rows with that value, in the view's order. -/
theorem top_movies_spec (view : List MovieRecord) :
    List.Pairwise (fun a b => b.popularity ≤ a.popularity) (top_movies view)
    ∧ (top_movies view).length = min 10 view.length
    ∧ (∃ rest, view.Perm (top_movies view ++ rest)
        ∧ ∀ a ∈ top_movies view, ∀ b ∈ rest, b.popularity ≤ a.popularity)
    ∧ (view.length < 10 → view.Perm (top_movies view))
    ∧ (∀ p : ℚ, List.IsPrefix
        ((top_movies view).filter (fun r => decide (r.popularity = p)))
        (view.filter (fun r => decide (r.popularity = p)))) := by
  simp only [top_movies]
  set S := List.mergeSort view popDescLe with hS
  have hsorted : S.Pairwise (fun a b => popDescLe a b = true) :=
    List.sorted_mergeSort popDescLe_trans popDescLe_total view
  have hSperm : S.Perm view := List.mergeSort_perm view popDescLe
  have htd : S.take 10 ++ S.drop 10 = S := List.take_append_drop 10 S
  have hpair : (S.take 10 ++ S.drop 10).Pairwise (fun a b => popDescLe a b = true) := by
    rw [htd]; exact hsorted
  have hsplit := List.pairwise_append.mp hpair
  refine ⟨?_, ?_, ?_, ?_, ?_⟩
  · exact hsplit.1.imp (fun h => by
      simpa only [popDescLe, decide_eq_true_eq] using h)
  · rw [List.length_take, List.length_mergeSort]
  · refine ⟨S.drop 10, ?_, ?_⟩
    · rw [htd]; exact hSperm.symm
    · intro a ha b hb
      have h := hsplit.2.2 a ha b hb
      simpa only [popDescLe, decide_eq_true_eq] using h
  · intro h
    have hlen : S.length ≤ 10 := by rw [List.length_mergeSort]; omega
    rw [List.take_of_length_le hlen]
    exact hSperm.symm
  · intro p
    refine ⟨(S.drop 10).filter (fun r => decide (r.popularity = p)), ?_⟩
    rw [← List.filter_append, htd]
    exact filter_mergeSort_popEq view p

/-- C5 witness: a three-row view (two popularity ties) is returned
whole by `top_movies`. -/
theorem top_movies_spec_witness :
    ([movieTie1, movieA, movieTie2] : List MovieRecord).Perm
      (top_movies [movieTie1, movieA, movieTie2]) :=
  (top_movies_spec [movieTie1, movieA, movieTie2]).2.2.2.1 (by decide)

/-- C7: a pair `(g, c)` occurs in the genre distribution exactly when
`g` is a token of the view's comma-split, trimmed, non-empty genre
token multiset and `c` is that multiset's frequency of `g`; in
particular the rows `["Action, Drama", "Action"]` yield the counts
`{Action: 2, Drama: 1}`. -/
theorem genre_df_multiset_counts (view : List MovieRecord) :
    (∀ (g : String) (c : Nat),
        (g, c) ∈ genre_df view
          ↔ g ∈ genre_split view ∧ c = (genre_split view).count g)
    ∧ genre_df [movieActionDrama, movieActionOnly]
        = [("Action", 2), ("Drama", 1)] := by
  constructor
  · intro g c
    constructor
    · intro h
      have h2 : (g, c) ∈ ((genre_split view).dedup).map
          (fun g => (g, (genre_split view).count g)) := by
        rw [genre_df] at h
        exact List.mem_mergeSort.mp h
      obtain ⟨g2, hg2, heq⟩ := List.mem_map.mp h2
      have hfst : g2 = g := congrArg Prod.fst heq
      have hsnd : (genre_split view).count g2 = c := congrArg Prod.snd heq
      subst hfst
      exact ⟨List.mem_dedup.mp hg2, hsnd.symm⟩
    · rintro ⟨hg, rfl⟩
      rw [genre_df]
      apply List.mem_mergeSort.mpr
      exact List.mem_map.mpr ⟨g, List.mem_dedup.mpr hg, rfl⟩
  · have h1 : ((genre_split [movieActionDrama, movieActionOnly]).dedup).map
        (fun g => (g, (genre_split [movieActionDrama, movieActionOnly]).count g))
        = [("Drama", 1), ("Action", 2)] := by decide
    rw [genre_df, h1, List.mergeSort]
    norm_num [List.merge, List.mergeSort]

/-- C8: the selectable genre universe contains exactly the trimmed
non-empty comma-split tokens occurring in some row of the full Dataset,
and the options the script offers do not depend on the current year or
genre selection. -/
theorem all_genres_from_dataset (ds : List MovieRecord) :
    (∀ g : String, g ∈ all_genres ds
        ↔ ∃ r ∈ ds, g ∈ genreTokens r.genre ∧ g ≠ "")
    ∧ (∀ (ys1 ys2 : List Int) (gs1 gs2 : List String),
        genreOptions ds ys1 gs1 = genreOptions ds ys2 gs2) := by
  constructor
  · intro g
    rw [all_genres, List.mem_mergeSort, List.mem_dedup, List.mem_flatMap]
    constructor
    · rintro ⟨r, hr, hg⟩
      by_cases hge : r.genre = ""
      · rw [if_pos hge] at hg
        cases hg
      · rw [if_neg hge] at hg
        have h := List.mem_filter.mp hg
        exact ⟨r, hr, h.1, by simpa using h.2⟩
    · rintro ⟨r, hr, hmem, hne⟩
      refine ⟨r, hr, ?_⟩
      by_cases hge : r.genre = ""
      · exfalso
        rw [hge] at hmem
        have : g = "" := by
          have he : genreTokens "" = [""] := rfl
          rw [he] at hmem
          simpa using hmem
        exact hne this
      · rw [if_neg hge]
        exact List.mem_filter.mpr ⟨hmem, by simpa using hne⟩
  · intro ys1 ys2 gs1 gs2
    rfl

/-- An unquoted run of safe characters parses back to itself, stopping
at the terminator. -/
lemma parseUnquoted_append (l rest : List Char)
    (hl : ∀ c ∈ l, ¬ c = ',' ∧ ¬ c = '\n')
    (hr : rest = [] ∨ (∃ cs, rest = ',' :: cs) ∨ (∃ cs, rest = '\n' :: cs)) :
    parseUnquoted (l ++ rest) = (l, rest) := by
  induction l with
  | nil =>
    simp only [List.nil_append]
    rcases hr with h | ⟨cs, h⟩ | ⟨cs, h⟩ <;> subst h <;> simp [parseUnquoted]
  | cons c l ih =>
    have hc := hl c (List.mem_cons_self c l)
    simp only [List.cons_append, parseUnquoted]
    rw [if_neg (by simp [hc.1, hc.2])]
    simp [ih (fun x hx => hl x (List.mem_cons_of_mem c hx))]

/-- A quote-escaped body followed by the closing quote parses back to
the body, provided what follows the closing quote does not begin with
another quote. -/
lemma parseQuoted_escape (l rest : List Char)
    (hr : rest = [] ∨ ∃ c cs, rest = c :: cs ∧ c ≠ '"') :
    parseQuoted (escapeQuotes l ++ '"' :: rest) = some (l, rest) := by
  induction l with
  | nil =>
    simp only [escapeQuotes, List.nil_append]
    rcases hr with h | ⟨c, cs, h, hc⟩
    · subst h; simp [parseQuoted]
    · subst h; simp [parseQuoted, hc]
  | cons c l ih =>
    by_cases hc : c = '"'
    · subst hc
      simp only [escapeQuotes, if_pos rfl, List.cons_append]
      simp [parseQuoted, ih]
    · simp only [escapeQuotes, if_neg hc, List.cons_append]
      have hne2 : escapeQuotes l ++ '"' :: rest ≠ [] := by simp
      obtain ⟨c2, cs2, heq⟩ := List.exists_cons_of_ne_nil hne2
      rw [heq]
      simp only [parseQuoted, if_neg hc]
      rw [← heq, ih]
      rfl

/-- A rendered CSV field parses back to exactly the original string,
whatever characters it contains, when followed by a separator, a
newline, or the end of input. -/
lemma parseField_csvField (s : String) (rest : List Char)
    (hr : rest = [] ∨ (∃ cs, rest = ',' :: cs) ∨ (∃ cs, rest = '\n' :: cs)) :
    parseField (csvField s ++ rest) = some (s.data, rest) := by
  rw [csvField]
  by_cases hq : needsQuote s
  · rw [if_pos hq]
    have hassoc : ('"' :: escapeQuotes s.data ++ ['"']) ++ rest
        = '"' :: (escapeQuotes s.data ++ '"' :: rest) := by simp
    rw [hassoc]
    have hfield : parseField ('"' :: (escapeQuotes s.data ++ '"' :: rest))
        = parseQuoted (escapeQuotes s.data ++ '"' :: rest) := by
      simp [parseField]
    rw [hfield]
    apply parseQuoted_escape
    rcases hr with h | ⟨cs, h⟩ | ⟨cs, h⟩
    · exact Or.inl h
    · exact Or.inr ⟨',', cs, h, by decide⟩
    · exact Or.inr ⟨'\n', cs, h, by decide⟩
  · rw [if_neg hq]
    have hchars : ∀ c ∈ s.data, ¬ c = ',' ∧ ¬ c = '"' ∧ ¬ c = '\n' := by
      intro c hcmem
      simp only [needsQuote, List.any_eq_true, Bool.or_eq_true, decide_eq_true_eq,
        not_exists, not_and, not_or] at hq
      have := hq c hcmem
      tauto
    rcases hd : s.data with _ | ⟨c, cs⟩
    · simp only [List.nil_append]
      rcases hr with h | ⟨cs2, h⟩ | ⟨cs2, h⟩ <;> subst h <;>
        simp [parseField, parseUnquoted]
    · have hc := hchars c (by rw [hd]; exact List.mem_cons_self c cs)
      simp only [List.cons_append]
      have hfield : parseField (c :: (cs ++ rest))
          = some (parseUnquoted (c :: (cs ++ rest))) := by
        simp [parseField, hc.2.1]
      rw [hfield]
      have hu : parseUnquoted ((c :: cs) ++ rest) = (c :: cs, rest) := by
        apply parseUnquoted_append
        · intro x hx
          have := hchars x (by rw [hd]; exact hx)
          exact ⟨this.1, this.2.2⟩
        · exact hr
      rw [List.cons_append] at hu
      rw [hu]

/-- A rendered record is at least as long as its separator count. -/
lemma csvRow_length_ge (f : String) (fs : List String) :
    fs.length ≤ (csvRow (f :: fs)).length := by
  induction fs generalizing f with
  | nil => simp
  | cons f2 fs ih =>
    have h : csvRow (f :: f2 :: fs) = csvField f ++ ',' :: csvRow (f2 :: fs) := rfl
    rw [h]
    simp only [List.length_append, List.length_cons]
    have h2 := ih f2
    omega

/-- A rendered record followed by a newline parses back to its list of
fields, consuming the newline. -/
lemma parseRecord_csvRow (f : String) (fs : List String) (rest : List Char)
    (fuel : Nat) (hfuel : fs.length < fuel) :
    parseRecord fuel (csvRow (f :: fs) ++ '\n' :: rest)
      = some ((f :: fs).map String.data, rest) := by
  induction fs generalizing f fuel rest with
  | nil =>
    obtain ⟨m, rfl⟩ : ∃ m, fuel = m + 1 := ⟨fuel - 1, by omega⟩
    have h : csvRow [f] = csvField f := by simp [csvRow, joinSep]
    rw [h]
    have hf := parseField_csvField f ('\n' :: rest) (Or.inr (Or.inr ⟨rest, rfl⟩))
    simp [parseRecord, hf]
  | cons f2 fs ih =>
    obtain ⟨m, rfl⟩ : ∃ m, fuel = m + 1 := ⟨fuel - 1, by omega⟩
    have h : csvRow (f :: f2 :: fs) = csvField f ++ ',' :: csvRow (f2 :: fs) := rfl
    rw [h]
    have hassoc : (csvField f ++ ',' :: csvRow (f2 :: fs)) ++ '\n' :: rest
        = csvField f ++ ',' :: (csvRow (f2 :: fs) ++ '\n' :: rest) := by simp
    rw [hassoc]
    have hf := parseField_csvField f (',' :: (csvRow (f2 :: fs) ++ '\n' :: rest))
      (Or.inr (Or.inl ⟨_, rfl⟩))
    have hrec := ih f2 rest m (by simp at hfuel; omega)
    simp [parseRecord, hf, hrec]

/-- Each rendered record contributes at least one character (its
newline). -/
lemma rows_flatMap_length_ge (rows : List (List String)) :
    rows.length ≤ (rows.flatMap (fun r => csvRow r ++ ['\n'])).length := by
  induction rows with
  | nil => simp
  | cons r rows ih =>
    simp only [List.flatMap_cons, List.length_append, List.length_cons]
    simp only [List.length_append] at ih ⊢
    omega

/-- The rendered newline-terminated records parse back to the table of
fields, given fuel above the row count and no field-less record. -/
lemma parseRows_csv (rows : List (List String)) (fuel : Nat)
    (hfuel : rows.length < fuel) (hne : ∀ r ∈ rows, r ≠ []) :
    parseRows fuel (rows.flatMap (fun r => csvRow r ++ ['\n']))
      = some (rows.map (fun r => r.map String.data)) := by
  induction rows generalizing fuel with
  | nil =>
    obtain ⟨m, rfl⟩ : ∃ m, fuel = m + 1 := ⟨fuel - 1, by omega⟩
    simp [parseRows]
  | cons r rows ih =>
    obtain ⟨m, rfl⟩ : ∃ m, fuel = m + 1 := ⟨fuel - 1, by omega⟩
    obtain ⟨f, fs, rfl⟩ : ∃ f fs, r = f :: fs := by
      rcases r with _ | ⟨f, fs⟩
      · exact absurd rfl (hne [] (List.mem_cons_self _ _))
      · exact ⟨f, fs, rfl⟩
    have hflat : ((f :: fs) :: rows).flatMap (fun r => csvRow r ++ ['\n'])
        = csvRow (f :: fs) ++ '\n' :: rows.flatMap (fun r => csvRow r ++ ['\n']) := by
      simp [List.flatMap_cons]
    rw [hflat]
    obtain ⟨c, cs2, hcons⟩ : ∃ c cs2,
        csvRow (f :: fs) ++ '\n' :: rows.flatMap (fun r => csvRow r ++ ['\n'])
          = c :: cs2 := by
      rcases hx : csvRow (f :: fs) with _ | ⟨c, cs⟩
      · exact ⟨'\n', rows.flatMap (fun r => csvRow r ++ ['\n']), by simp [hx]⟩
      · exact ⟨c, cs ++ '\n' :: rows.flatMap (fun r => csvRow r ++ ['\n']), by simp [hx]⟩
    have hreclen : fs.length
        < (csvRow (f :: fs) ++ '\n' :: rows.flatMap (fun r => csvRow r ++ ['\n'])).length
            + 1 := by
      have h1 := csvRow_length_ge f fs
      simp only [List.length_append, List.length_cons]
      omega
    have hrec := parseRecord_csvRow f fs (rows.flatMap (fun r => csvRow r ++ ['\n']))
      ((csvRow (f :: fs) ++ '\n' :: rows.flatMap (fun r => csvRow r ++ ['\n'])).length + 1)
      hreclen
    have hihyp := ih m (by simp at hfuel; omega)
      (fun r hr => hne r (List.mem_cons_of_mem _ hr))
    rw [hcons]
    simp only [parseRows]
    rw [← hcons, hrec]
    simp [hihyp]

/-- Exporting any view and reparsing recovers the header and every
row's cells exactly. -/
lemma parseCSV_to_csv (view : List MovieRecord) :
    parseCSV (to_csv view) = some (headerFields :: view.map rowFields) := by
  rw [parseCSV, to_csv]
  have hdata : (String.mk ((headerFields :: view.map rowFields).flatMap
      (fun r => csvRow r ++ ['\n']))).data
      = (headerFields :: view.map rowFields).flatMap (fun r => csvRow r ++ ['\n']) := rfl
  rw [hdata]
  rw [parseRows_csv]
  · simp only [Option.map_some', List.map_map]
    congr 1
    apply List.map_id''
    intro r
    simp only [Function.comp_apply, List.map_map]
    apply List.map_id''
    intro s
    cases s
    rfl
  · have h := rows_flatMap_length_ge (headerFields :: view.map rowFields)
    omega
  · intro r hr
    rcases List.mem_cons.mp hr with h | h
    · subst h
      simp [headerFields]
    · obtain ⟨rec, _, hrec⟩ := List.mem_map.mp h
      rw [← hrec]
      simp [rowFields]

/-- C9: exporting a non-empty FilteredView to CSV and reparsing yields
the header plus exactly one parsed row per view row; the parsed table
has the view's row count, its first column reproduces the `Title`
column in order, and hence the set of `Title` values is preserved. -/
theorem csv_roundtrip (view : List MovieRecord) (_h : view ≠ []) :
    parseCSV (to_csv view) = some (headerFields :: view.map rowFields)
    ∧ (view.map rowFields).length = view.length
    ∧ (view.map rowFields).map (fun r => r.headD "") = view.map (fun r => r.title)
    ∧ ((view.map rowFields).map (fun r => r.headD "")).toFinset
        = (view.map (fun r => r.title)).toFinset := by
  have hcol : (view.map rowFields).map (fun r => r.headD "")
      = view.map (fun r => r.title) := by
    rw [List.map_map]
    rfl
  exact ⟨parseCSV_to_csv view, List.length_map view rowFields, hcol, by rw [hcol]⟩

/-- C9 witness: the round-trip applied to the concrete one-row view
`[movieA]`. -/
theorem csv_roundtrip_witness :
    parseCSV (to_csv [movieA]) = some (headerFields :: [movieA].map rowFields)
    ∧ ([movieA].map rowFields).length = ([movieA] : List MovieRecord).length
    ∧ ([movieA].map rowFields).map (fun r => r.headD "")
        = [movieA].map (fun r => r.title)
    ∧ (([movieA].map rowFields).map (fun r => r.headD "")).toFinset
        = ([movieA].map (fun r => r.title)).toFinset :=
  csv_roundtrip [movieA] (by simp)
